import Mathlib

/-!
Shallow embedding of the Pond client core (client/tpm/tpm.go): contact
key-rotation engine, sealing and unsealing, group-signature fetch
processing, revocation handling, the network transaction dispatch and the
detachment transfer loop.  External cryptographic and serialization
libraries (nacl box, ed25519, bbssig, protobuf) are modelled as oracle
parameters; byte strings are lists of naturals and fixed-size Go arrays
are modelled with explicit zero padding where the source relies on it.
-/

namespace Pond

abbrev Bytes := List Nat

/-- nonceLen from the source: NaCl box nonces are 24 bytes. -/
def nonceLen : Nat := 24

/-- box.Overhead: the AEAD adds 16 bytes to a sealed plaintext. -/
def boxOverhead : Nat := 16

/-- ephemeralBlockLen = nonceLen + 32 + box.Overhead = 72. -/
def ephemeralBlockLen : Nat := nonceLen + 32 + boxOverhead

/-- Go copies a slice into a fixed zero-initialized array: the result is the
first n bytes, zero padded when the source is shorter. -/
def fixedBytes (n : Nat) (l : Bytes) : Bytes :=
  l.take n ++ List.replicate (n - l.length) 0

/-- Little-endian 32-bit length prefix as written by binary.LittleEndian.PutUint32. -/
def le32put (n : Nat) : Bytes :=
  [n % 256, n / 256 % 256, n / 65536 % 256, n / 16777216 % 256]

/-- Little-endian 32-bit read as done by binary.LittleEndian.Uint32 (missing
bytes read as zero, matching the zeroed fixed buffer). -/
def le32get (l : Bytes) : Nat :=
  l.getD 0 0 + 256 * l.getD 1 0 + 65536 * l.getD 2 0 + 16777216 * l.getD 3 0

/-- The Contact record (the fields of the Go Contact struct that the claims
touch).  Group credentials are carried in their marshalled byte form. -/
structure Contact where
  id : Nat
  name : String
  theirServer : String
  theirIdentityPublic : Bytes
  theirPub : Bytes
  groupKey : Bytes
  myGroupKey : Bytes
  generation : Nat
  theirLastDHPublic : Bytes
  theirCurrentDHPublic : Bytes
  lastDHPrivate : Bytes
  currentDHPrivate : Bytes
  previousTags : List Bytes
  supportedVersion : Int
  isPending : Bool
  revoked : Bool
  revokedUs : Bool
  kxsBytes : Bytes
deriving Repr, DecidableEq

/-- A pond.Message as far as unsealMessage inspects it. -/
structure PondMessage where
  msgId : Nat
  myNextDh : Bytes
  inReplyTo : Option Nat
  supportedVersion : Option Int
  body : Bytes
deriving Repr, DecidableEq

/-- pond.SignedRevocation_Revocation. -/
structure RevocationRecord where
  revocation : Bytes
  generation : Nat
deriving Repr, DecidableEq

/-- pond.SignedRevocation. -/
structure SignedRevocation where
  revocation : RevocationRecord
  signature : Bytes
deriving Repr, DecidableEq

/-- The request union of the wire protocol (only the arms the client builds). -/
inductive Request where
  | deliver (toPub : Bytes) (signature : Bytes) (generation : Nat) (message : Bytes)
  | revocationReq (sr : SignedRevocation)
  | fetch
deriving Repr, DecidableEq

/-- queuedMessage: an outbox entry.  Wall-clock times are modelled as flags. -/
structure QueuedMessage where
  id : Nat
  toId : Nat
  server : String
  revocation : Bool
  request : Request
  sent : Bool
  acked : Bool
deriving Repr, DecidableEq

/-- An inbox entry as far as the duplicate-suppression scan reads it. -/
structure InboxEntry where
  id : Nat
  fromId : Nat
  message : Option PondMessage
deriving Repr, DecidableEq

/-- box.Open as an oracle: sealed bytes, nonce, peer public, our private. -/
abbrev BoxOpen := Bytes → Bytes → Bytes → Bytes → Option Bytes

/-- The ratchet step of the source: lastDHPrivate receives currentDHPrivate
and currentDHPrivate receives a fresh random scalar. -/
def ratchet (fresh : Bytes) (c : Contact) : Contact :=
  { c with lastDHPrivate := c.currentDHPrivate, currentDHPrivate := fresh }

/-- decryptMessageInner: the four-combination box ladder.  On a success that
used currentDHPrivate the contact is ratcheted. -/
def decryptMessageInner (boxOpen : BoxOpen) (fresh : Bytes)
    (sealed nonce : Bytes) (c : Contact) : Option Bytes × Contact :=
  match boxOpen sealed nonce c.theirLastDHPublic c.lastDHPrivate with
  | some pt => (some pt, c)
  | none =>
    match boxOpen sealed nonce c.theirCurrentDHPublic c.lastDHPrivate with
    | some pt => (some pt, c)
    | none =>
      match (match boxOpen sealed nonce c.theirLastDHPublic c.currentDHPrivate with
             | some pt => some pt
             | none => boxOpen sealed nonce c.theirCurrentDHPublic c.currentDHPrivate) with
      | some pt => (some pt, ratchet fresh c)
      | none => (none, c)

/-- decryptMessage: the inner ladder, then the ephemeral-block path.  fresh1
feeds the ladder ratchets, fresh2 the final ephemeral-path ratchet. -/
def decryptMessage (boxOpen : BoxOpen) (fresh1 fresh2 : Bytes)
    (sealed nonce : Bytes) (c : Contact) : Option Bytes × Contact :=
  match decryptMessageInner boxOpen fresh1 sealed nonce c with
  | (some pt, c1) => (some pt, c1)
  | (none, _) =>
    let headerLen := ephemeralBlockLen - nonceLen
    if sealed.length > headerLen then
      match decryptMessageInner boxOpen fresh1 (sealed.take headerLen) nonce c with
      | (none, c1) => (none, c1)
      | (some publicBytes, c1) =>
        if publicBytes.length ≠ 32 then (none, c1)
        else
          let rest := sealed.drop headerLen
          let innerNonce := fixedBytes nonceLen rest
          let rest2 := rest.drop nonceLen
          match boxOpen rest2 innerNonce publicBytes c1.lastDHPrivate with
          | some pt => (some pt, c1)
          | none =>
            match boxOpen rest2 innerNonce publicBytes c1.currentDHPrivate with
            | none => (none, c1)
            | some pt => (some pt, ratchet fresh2 c1)
    else (none, c)

/-- Result of unsealMessage.  panicked models the Go panic on a pending
contact; accepted carries the updated contact and the outbox after any
in-reply-to acknowledgement. -/
inductive UnsealResult where
  | panicked
  | dropped (c : Contact)
  | accepted (c : Contact) (msg : PondMessage) (outbox : List QueuedMessage)
deriving Repr, DecidableEq

/-- unsealMessage: nonce split, decrypt, length-prefix parse, protobuf parse
(an oracle), DH-length check, duplicate suppression, DH-public shift,
in-reply-to acknowledgement, version update, kxs clearing. -/
def unsealMessage (boxOpen : BoxOpen) (parse : Bytes → Option PondMessage)
    (fresh1 fresh2 : Bytes) (inbox : List InboxEntry) (outbox : List QueuedMessage)
    (inboxId : Nat) (sealed : Bytes) (c : Contact) : UnsealResult :=
  if c.isPending then .panicked
  else
    let nonce := fixedBytes nonceLen sealed
    let rest := sealed.drop nonceLen
    match decryptMessage boxOpen fresh1 fresh2 rest nonce c with
    | (none, c1) => .dropped c1
    | (some pt, c1) =>
      if pt.length < 4 then .dropped c1
      else
        let mLen := le32get pt
        let body := pt.drop 4
        if mLen > body.length then .dropped c1
        else
          match parse (body.take mLen) with
          | none => .dropped c1
          | some msg =>
            if msg.myNextDh.length ≠ 32 then .dropped c1
            else if inbox.any (fun e =>
                e.fromId = c.id ∧ e.id ≠ inboxId ∧
                  e.message.map PondMessage.msgId = some msg.msgId) then .dropped c1
            else
              let c2 := if msg.myNextDh ≠ c1.theirCurrentDHPublic then
                  { c1 with theirLastDHPublic := c1.theirCurrentDHPublic,
                            theirCurrentDHPublic := msg.myNextDh }
                else c1
              let ob := match msg.inReplyTo with
                | none => outbox
                | some rid => outbox.map (fun m =>
                    if m.id = rid then { m with acked := true } else m)
              let c3 := match msg.supportedVersion with
                | some v => { c2 with supportedVersion := v }
                | none => c2
              .accepted { c3 with kxsBytes := [] } msg ob

/-- First success of an oracle over a list, in order; the reference order of
box attempts in the unsealing specification. -/
def firstHit (f : α → Option β) : List α → Option β
  | [] => none
  | a :: rest =>
    match f a with
    | some b => some b
    | none => firstHit f rest

/-- The domain-separation bytes "revocation\x00" prepended before signing a
revocation (revocationSignaturePrefix in the source). -/
def revocationSigContext : Bytes :=
  [114, 101, 118, 111, 99, 97, 116, 105, 111, 110, 0]

/-- The client state touched by revoke and by the fetch path.  Group keys are
carried in marshalled form; the deep copy of the group private key appended
to prevGroupPrivs is modelled by appending the same bytes. -/
structure ClientState where
  generation : Nat
  privEd : Bytes
  groupPriv : Bytes
  prevGroupPrivs : List Bytes
  contacts : List Contact
  queue : List QueuedMessage
  outbox : List QueuedMessage
deriving Repr, DecidableEq

/-- The observable result of revoke: the new client state, the enqueued
revocation outbox entry and the byte string handed to ed25519.Sign. -/
structure RevokeOut where
  client : ClientState
  queued : QueuedMessage
  signedBytes : Bytes
deriving Repr, DecidableEq

/-- revoke(to): mark revoked, generate the revocation token, retain a copy of
the group private key, update every other contact; build the wire record
from the generation BEFORE the local increment, update our group, increment
the generation, then sign the context-prefixed serialized record and
enqueue. -/
def revoke (genRevocation : Bytes → Bytes → Bytes)
    (updateMember updateGroup : Bytes → Bytes → Bytes)
    (tagOf : Bytes → Bytes) (signEd : Bytes → Bytes → Bytes)
    (serializeRev : RevocationRecord → Bytes)
    (newId : Nat) (c : ClientState) (toC : Contact) : RevokeOut :=
  let toRevoked := { toC with revoked := true }
  let revocation := genRevocation c.groupPriv toC.groupKey
  let prevs := c.prevGroupPrivs ++ [c.groupPriv]
  let contacts := c.contacts.map (fun ct =>
    if ct.id = toC.id then toRevoked
    else { ct with previousTags := ct.previousTags ++ [tagOf ct.groupKey],
                   groupKey := updateMember ct.groupKey revocation })
  let rev : RevocationRecord := { revocation := revocation, generation := c.generation }
  let newGroupPriv := updateGroup c.groupPriv revocation
  let gen2 := c.generation + 1
  let revBytes := serializeRev rev
  let signed := revocationSigContext ++ revBytes
  let sig := signEd c.privEd signed
  let signedRev : SignedRevocation := { revocation := rev, signature := sig }
  let out : QueuedMessage :=
    { id := newId, toId := toC.id, server := toC.theirServer, revocation := true,
      request := .revocationReq signedRev, sent := false, acked := false }
  { client := { c with generation := gen2, groupPriv := newGroupPriv,
                       prevGroupPrivs := prevs, contacts := contacts,
                       queue := c.queue ++ [out], outbox := c.outbox ++ [out] },
    queued := out, signedBytes := signed }

/-- send(to, message): the length gate, the padded length-prefixed plaintext,
the sealed envelope (with the ephemeral outer block for version at least 1)
and the delivery request.  boxSeal takes plaintext, nonce, peer public and
our private; pad is the CSPRNG stream that fills the padding. -/
def send (boxSeal : Bytes → Bytes → Bytes → Bytes → Bytes)
    (groupSign : Bytes → Bytes → Bytes) (sha : Bytes → Bytes)
    (pad : Nat → Nat) (innerNonce outerNonce ephPub ephPriv : Bytes)
    (maxSerializedMessage : Nat) (toC : Contact) (messageBytes : Bytes)
    (msgId : Nat) : Except String (Bytes × QueuedMessage) :=
  if messageBytes.length > maxSerializedMessage then .error "message too large"
  else
    let plaintext := le32put messageBytes.length ++ messageBytes ++
      (List.range (maxSerializedMessage - messageBytes.length)).map pad
    let sealed :=
      if toC.supportedVersion ≥ 1 then
        outerNonce ++ boxSeal ephPub outerNonce toC.theirCurrentDHPublic toC.lastDHPrivate
          ++ innerNonce ++ boxSeal plaintext innerNonce toC.theirCurrentDHPublic ephPriv
      else
        innerNonce ++ boxSeal plaintext innerNonce toC.theirCurrentDHPublic toC.lastDHPrivate
    let digest := sha sealed
    let groupSig := groupSign toC.myGroupKey digest
    let out : QueuedMessage :=
      { id := msgId, toId := toC.id, server := toC.theirServer, revocation := false,
        request := .deliver toC.theirIdentityPublic groupSig toC.generation sealed,
        sent := false, acked := false }
    .ok (sealed, out)

/-- The scan of prevGroupPrivs in processFetch: the first entry whose Verify
succeeds on the signature. -/
def scanPrevGroupPrivs (verify : Bytes → Bytes → Bool) (sig : Bytes) :
    List Bytes → Option Bytes
  | [] => none
  | p :: rest => if verify p sig then some p else scanPrevGroupPrivs verify sig rest

/-- The verification and tag-extraction stage of processFetch: verify under
the current group private, else scan previous ones; on any verification
success the tag is opened under the CURRENT group private key. -/
def fetchTag (verify : Bytes → Bytes → Bool) (openSig : Bytes → Bytes → Option Bytes)
    (groupPriv : Bytes) (prevs : List Bytes) (sig : Bytes) : Option Bytes :=
  if verify groupPriv sig then openSig groupPriv sig
  else
    match scanPrevGroupPrivs verify sig prevs with
    | some _ => openSig groupPriv sig
    | none => none

/-- The tag-to-contact resolution of processFetch: current member key tag
first, else any previous tag, scanning contacts in order. -/
def findContactByTag (tagOf : Bytes → Bytes) (tag : Bytes)
    (contacts : List Contact) : Option Contact :=
  contacts.find? (fun cand => tagOf cand.groupKey = tag ∨ tag ∈ cand.previousTags)

/-- The outcome of processFetch on a fetched envelope. -/
inductive FetchOutcome where
  | droppedMsg
  | addedPending (entry : InboxEntry)
  | addedMessage (c : Contact) (msg : PondMessage) (outbox : List QueuedMessage)
  | panicked
deriving Repr, DecidableEq

/-- processFetch on a fetched message: group-signature verification and tag
extraction, contact resolution, revoked and minimum-size gates, then either
the pending-inbox path or unsealMessage for a non-pending sender. -/
def processFetch (verify : Bytes → Bytes → Bool)
    (openSig : Bytes → Bytes → Option Bytes) (tagOf : Bytes → Bytes)
    (boxOpen : BoxOpen) (parse : Bytes → Option PondMessage)
    (fresh1 fresh2 : Bytes) (groupPriv : Bytes) (prevs : List Bytes)
    (contacts : List Contact) (inbox : List InboxEntry)
    (outbox : List QueuedMessage) (newId : Nat)
    (fMessage fSignature : Bytes) : FetchOutcome :=
  match fetchTag verify openSig groupPriv prevs fSignature with
  | none => .droppedMsg
  | some tag =>
    match findContactByTag tagOf tag contacts with
    | none => .droppedMsg
    | some fromC =>
      if fromC.revoked then .droppedMsg
      else if fMessage.length < boxOverhead + 24 then .droppedMsg
      else if fromC.isPending then
        .addedPending { id := newId, fromId := fromC.id, message := none }
      else
        match unsealMessage boxOpen parse fresh1 fresh2 inbox outbox newId fMessage fromC with
        | .panicked => .panicked
        | .dropped _ => .droppedMsg
        | .accepted c2 msg ob => .addedMessage c2 msg ob

/-- messageSendResult handed from the network worker to processMessageSent. -/
structure MessageSendResult where
  id : Nat
  revocation : Option SignedRevocation
deriving Repr, DecidableEq

/-- A revocationUpdate posted to the network worker for re-signing. -/
structure RevUpdate where
  contactId : Nat
  key : Bytes
  generation : Nat
deriving Repr, DecidableEq

/-- The state mutated by processMessageSent. -/
structure PMSState where
  contacts : List Contact
  queue : List QueuedMessage
  outbox : List QueuedMessage
deriving Repr, DecidableEq

/-- Result of processMessageSent: the new state and any posted
revocationUpdate events. -/
structure PMSResult where
  state : PMSState
  posted : List RevUpdate
deriving Repr, DecidableEq

/-- Replace the contact with the given id. -/
def updateContact (contacts : List Contact) (cid : Nat) (f : Contact → Contact) :
    List Contact :=
  contacts.map (fun c => if c.id = cid then f c else c)

/-- processMessageSent: on a GENERATION_REVOKED revocation reply, check the
generation, the signature length (Go: copy into a 64-byte array must return
64, so only shorter signatures are rejected and longer ones are truncated),
verify over the context-prefixed serialized record, parse, increment the
generation, then either mark revokedUs and purge the queue, or refresh the
member key and post a revocationUpdate.  none models the nil dereference
when the outbox entry or contact is missing. -/
def processMessageSent (verifyEd : Bytes → Bytes → Bytes → Bool)
    (serializeRev : RevocationRecord → Bytes) (parseRev : Bytes → Option Bytes)
    (updateMemberRes : Bytes → Bytes → Option Bytes)
    (st : PMSState) (msr : MessageSendResult) : Option PMSResult :=
  match st.outbox.find? (fun m => m.id = msr.id) with
  | none => none
  | some msg =>
    match msr.revocation with
    | none =>
      some { state := { st with outbox := st.outbox.map (fun m =>
               if m.id = msr.id then { m with sent := true } else m) },
             posted := [] }
    | some sr =>
      match st.contacts.find? (fun c => c.id = msg.toId) with
      | none => none
      | some toC =>
        if sr.revocation.generation ≠ toC.generation then
          some { state := st, posted := [] }
        else
          let revBytes := serializeRev sr.revocation
          if sr.signature.length < 64 then some { state := st, posted := [] }
          else
            let sig := fixedBytes 64 sr.signature
            let signed := revocationSigContext ++ revBytes
            if ¬ verifyEd toC.theirPub signed sig then some { state := st, posted := [] }
            else
              match parseRev sr.revocation.revocation with
              | none => some { state := st, posted := [] }
              | some rev =>
                let gen2 := toC.generation + 1
                match updateMemberRes toC.myGroupKey rev with
                | none =>
                  some { state :=
                           { contacts := updateContact st.contacts toC.id
                               (fun c => { c with generation := gen2, revokedUs := true }),
                             queue := st.queue.filter (fun m => m.toId ≠ msg.toId),
                             outbox := st.outbox },
                         posted := [] }
                | some newKey =>
                  some { state :=
                           { contacts := updateContact st.contacts toC.id
                               (fun c => { c with generation := gen2, myGroupKey := newKey }),
                             queue := st.queue, outbox := st.outbox },
                         posted := [{ contactId := msg.toId, key := newKey,
                                      generation := gen2 }] }

/-- The server reply status space as the client distinguishes it. -/
inductive Status where
  | ok
  | generationRevoked
  | resumePastEndOfFile
  | otherKnown (name : String)
  | unknown (code : Nat)
deriving Repr, DecidableEq

/-- A server reply as the transaction engine inspects it. -/
structure Reply where
  status : Option Status
  fetched : Bool
  announce : Bool
  revocation : Option SignedRevocation
deriving Repr, DecidableEq

/-- The enum-name table lookup of pond.Reply_Status_name. -/
def statusName : Status → Option String
  | .ok => some "OK"
  | .generationRevoked => some "GENERATION_REVOKED"
  | .resumePastEndOfFile => some "RESUME_PAST_END_OF_FILE"
  | .otherKnown n => some n
  | .unknown _ => none

/-- The numeric code of a status (only used for the unknown branch text). -/
def statusCode : Status → Nat
  | .ok => 0
  | .generationRevoked => 1
  | .resumePastEndOfFile => 2
  | .otherKnown _ => 3
  | .unknown code => code

/-- replyToError: an absent status or an explicit OK is success; a named
status maps to a server error, an unknown one to a numbered error. -/
def replyToError (r : Reply) : Option String :=
  match r.status with
  | none => none
  | some .ok => none
  | some s =>
    match statusName s with
    | some n => some ("error from server: " ++ n)
    | none => some ("unknown error from server: " ++ toString (statusCode s))

/-- The events the network worker emits after a transaction. -/
inductive NetEvent where
  | newMessage (fetched announce : Bool)
  | messageSent (id : Nat) (revocation : Option SignedRevocation)
deriving Repr, DecidableEq

/-- Head rotation under the queue mutex: the head moves to the tail. -/
def rotateHead (queue : List QueuedMessage) :
    Option (QueuedMessage × List QueuedMessage) :=
  match queue with
  | [] => none
  | h :: t => some (h, t ++ [h])

/-- The reply dispatch of transact, acting on the already rotated queue: with
no status field a fetch reply is handed over and a send removes the rotated
head from the tail; a GENERATION_REVOKED status with a revocation posts the
revocation without removal; anything else leaves the queue untouched. -/
def dispatchReply (isFetch : Bool) (head : QueuedMessage)
    (queue : List QueuedMessage) (reply : Reply) :
    List QueuedMessage × List NetEvent :=
  match reply.status with
  | none =>
    if isFetch ∧ (reply.fetched ∨ reply.announce) then
      (queue, [.newMessage reply.fetched reply.announce])
    else if ¬ isFetch then (queue.dropLast, [.messageSent head.id none])
    else (queue, [])
  | some s =>
    if ¬ isFetch ∧ s = .generationRevoked ∧ reply.revocation.isSome then
      (queue, [.messageSent head.id reply.revocation])
    else (queue, [])

/-- The streaming loop of transferDetachment: per chunk the cumulative
transferred counter grows and the guard aborts as soon as it exceeds the
total for this attempt. -/
inductive StreamResult where
  | guardFired (transferred : Int)
  | eofReached (transferred : Int)
deriving Repr, DecidableEq

def streamChunks (total : Int) (transferred : Int) : List Nat → StreamResult
  | [] => .eofReached transferred
  | n :: rest =>
    if transferred + n > total then .guardFired (transferred + n)
    else streamChunks total (transferred + n) rest

/-- The outcome of one connection attempt of transferDetachment. -/
inductive AttemptResult where
  | done
  | fatal (msg : String)
  | restart (transferred : Int)
deriving Repr, DecidableEq

/-- One upload attempt: uploadTransfer.ProcessReply computes the remaining
total from the server resume offset (complete when the offset already equals
the file size), then the chunks stream against the CUMULATIVE transferred
counter, which is never reset between attempts. -/
def uploadAttempt (fileSize resumeOffset transferred : Int)
    (chunks : List Nat) (completeOk : Bool) : AttemptResult :=
  if resumeOffset = fileSize then .done
  else
    let total := fileSize - resumeOffset
    match streamChunks total transferred chunks with
    | .guardFired _ => .fatal "transferred more than the expected amount"
    | .eofReached t =>
      if t < total then .restart t
      else if completeOk then .done else .restart t

/-- Sum of the chunk sizes of one attempt, as an integer. -/
def sumChunks (chunks : List Nat) : Int :=
  chunks.foldr (fun n a => (n : Int) + a) 0

/-- A concrete non-pending contact used by witnesses and counterexamples. -/
def sampleContact : Contact :=
  { id := 1, name := "alice", theirServer := "pondserver://x@y.onion",
    theirIdentityPublic := [8], theirPub := [11], groupKey := [2], myGroupKey := [3],
    generation := 5, theirLastDHPublic := [1], theirCurrentDHPublic := [2],
    lastDHPrivate := [3], currentDHPrivate := [4], previousTags := [],
    supportedVersion := 1, isPending := false, revoked := false,
    revokedUs := false, kxsBytes := [] }

/-- A concrete client state used by witnesses and counterexamples. -/
def sampleClient : ClientState :=
  { generation := 5, privEd := [12], groupPriv := [13], prevGroupPrivs := [],
    contacts := [sampleContact], queue := [], outbox := [] }

/-- A concrete outbox entry used by witnesses and counterexamples. -/
def sampleQueued : QueuedMessage :=
  { id := 2, toId := 1, server := "pondserver://x@y.onion", revocation := false,
    request := .fetch, sent := false, acked := false }

/-- A concrete state for the revocation-reply handler. -/
def samplePMSState : PMSState :=
  { contacts := [sampleContact], queue := [], outbox := [sampleQueued] }

/-- A signed revocation with a 65-byte signature against generation 5. -/
def sampleLongSigRev : SignedRevocation :=
  { revocation := { revocation := [1], generation := 5 },
    signature := List.replicate 65 7 }

/-- A signed revocation with a 2-byte signature against generation 5. -/
def sampleShortSigRev : SignedRevocation :=
  { revocation := { revocation := [1], generation := 5 },
    signature := [7, 7] }

/-- A pending variant of the sample contact. -/
def samplePendingContact : Contact := { sampleContact with isPending := true }

/-- The length of the sealed ciphertext of a send result, when it succeeded. -/
def sealedLenOf : Except String (Bytes × QueuedMessage) → Option Nat
  | .ok (s, _) => some s.length
  | .error _ => none

/-- Claim C2: for every sender contact and sealed input, the inner unseal
ladder attempts box open with the four public and private combinations in
exactly the order last times last, current times last, last times current,
current times current, and the ratchet step happens exactly when the first
successful combination used currentDHPrivate as the private half. -/
theorem decryptMessageInner_order_and_ratchet (boxOpen : BoxOpen) (fresh : Bytes)
    (sealed nonce : Bytes) (c : Contact) :
    (decryptMessageInner boxOpen fresh sealed nonce c).1 =
      firstHit (fun pk => boxOpen sealed nonce pk.1 pk.2)
        [(c.theirLastDHPublic, c.lastDHPrivate),
         (c.theirCurrentDHPublic, c.lastDHPrivate),
         (c.theirLastDHPublic, c.currentDHPrivate),
         (c.theirCurrentDHPublic, c.currentDHPrivate)]
    ∧ (decryptMessageInner boxOpen fresh sealed nonce c).2 =
        (if (boxOpen sealed nonce c.theirLastDHPublic c.lastDHPrivate).isSome
            ∨ (boxOpen sealed nonce c.theirCurrentDHPublic c.lastDHPrivate).isSome
            ∨ (boxOpen sealed nonce c.theirLastDHPublic c.currentDHPrivate = none
               ∧ boxOpen sealed nonce c.theirCurrentDHPublic c.currentDHPrivate = none)
         then c else ratchet fresh c) := by
  cases h1 : boxOpen sealed nonce c.theirLastDHPublic c.lastDHPrivate <;>
  cases h2 : boxOpen sealed nonce c.theirCurrentDHPublic c.lastDHPrivate <;>
  cases h3 : boxOpen sealed nonce c.theirLastDHPublic c.currentDHPrivate <;>
  cases h4 : boxOpen sealed nonce c.theirCurrentDHPublic c.currentDHPrivate <;>
  simp [decryptMessageInner, firstHit, h1, h2, h3, h4]

/-- Claim C1 (amended): the signed revocation enqueued by revoke carries the
generation from BEFORE the local increment (the post-revoke client
generation is that value plus one), and the bytes signed with the identity
Edwards key are the constant context bytes followed by the serialized
revocation record. -/
theorem revoke_signed_revocation_generation
    (genRev : Bytes → Bytes → Bytes) (updMem updGrp : Bytes → Bytes → Bytes)
    (tagOf : Bytes → Bytes) (signEd : Bytes → Bytes → Bytes)
    (serRev : RevocationRecord → Bytes) (newId : Nat)
    (c : ClientState) (toC : Contact) :
    ∃ sr : SignedRevocation,
      (revoke genRev updMem updGrp tagOf signEd serRev newId c toC).queued.request
        = .revocationReq sr
      ∧ sr.revocation.generation = c.generation
      ∧ (revoke genRev updMem updGrp tagOf signEd serRev newId c toC).client.generation
          = sr.revocation.generation + 1
      ∧ (revoke genRev updMem updGrp tagOf signEd serRev newId c toC).signedBytes
          = revocationSigContext ++ serRev sr.revocation
      ∧ sr.signature = signEd c.privEd (revocationSigContext ++ serRev sr.revocation) :=
  ⟨_, rfl, rfl, rfl, rfl, rfl⟩

/-- Claim C1 counterexample: at a concrete client state with generation 5,
the enqueued signed revocation carries generation 5 while the generation
after the local increment is 6, so the record does not carry the new
generation. -/
theorem revoke_generation_counterexample :
    (revoke (fun _ _ => [1]) (fun k _ => k) (fun g _ => g) (fun k => k)
        (fun _ m => m) (fun r => [r.generation]) 9 sampleClient sampleContact).client.generation = 6
    ∧ (revoke (fun _ _ => [1]) (fun k _ => k) (fun g _ => g) (fun k => k)
        (fun _ m => m) (fun r => [r.generation]) 9 sampleClient sampleContact).queued.request
        = .revocationReq { revocation := { revocation := [1], generation := 5 },
                           signature := revocationSigContext ++ [5] }
    ∧ (5 : Nat) ≠ 6 := by
  refine ⟨rfl, rfl, by decide⟩

/-- Claim C3: under the box seal length contract (ciphertext is plaintext
length plus the 16-byte AEAD overhead), 24-byte nonces and a 32-byte
ephemeral public, every accepted message seals to length
24 + 32 + 16 + 24 + 4 + MAX_SERIALIZED + 16 for a version at least 1 peer
and 24 + 4 + MAX_SERIALIZED + 16 for a version 0 peer, independent of the
message length. -/
theorem send_sealed_length (boxSeal : Bytes → Bytes → Bytes → Bytes → Bytes)
    (groupSign : Bytes → Bytes → Bytes) (sha : Bytes → Bytes) (pad : Nat → Nat)
    (innerNonce outerNonce ephPub ephPriv : Bytes) (maxSer : Nat)
    (toC : Contact) (messageBytes : Bytes) (msgId : Nat)
    (hSeal : ∀ pt n pk sk, (boxSeal pt n pk sk).length = pt.length + boxOverhead)
    (hin : innerNonce.length = nonceLen) (hout : outerNonce.length = nonceLen)
    (heph : ephPub.length = 32)
    (hlen : messageBytes.length ≤ maxSer) :
    (1 ≤ toC.supportedVersion →
      sealedLenOf (send boxSeal groupSign sha pad innerNonce outerNonce ephPub
          ephPriv maxSer toC messageBytes msgId)
        = some (24 + 32 + 16 + 24 + 4 + maxSer + 16))
    ∧ (toC.supportedVersion = 0 →
      sealedLenOf (send boxSeal groupSign sha pad innerNonce outerNonce ephPub
          ephPriv maxSer toC messageBytes msgId)
        = some (24 + 4 + maxSer + 16)) := by
  have hgate : ¬ (messageBytes.length > maxSer) := not_lt.mpr hlen
  constructor
  · intro hv
    have hv1 : toC.supportedVersion ≥ 1 := hv
    unfold send
    rw [if_neg hgate]
    simp only [if_pos hv1, sealedLenOf, List.length_append, hSeal, hin, hout,
      heph, le32put, List.length_map, List.length_range, List.length_cons,
      List.length_nil, boxOverhead, nonceLen, Option.some.injEq]
    omega
  · intro hv0
    have hv1 : ¬ (toC.supportedVersion ≥ 1) := by omega
    unfold send
    rw [if_neg hgate]
    simp only [if_neg hv1, sealedLenOf, List.length_append, hSeal, hin,
      le32put, List.length_map, List.length_range, List.length_cons,
      List.length_nil, boxOverhead, nonceLen, Option.some.injEq]
    omega

/-- Witness for send_sealed_length at concrete inputs. -/
theorem send_sealed_length_witness :
    (1 ≤ sampleContact.supportedVersion →
      sealedLenOf (send (fun pt _ _ _ => pt ++ List.replicate 16 0) (fun _ _ => [])
          (fun _ => []) (fun _ => 0) (List.replicate 24 0) (List.replicate 24 0)
          (List.replicate 32 0) [1] 5 sampleContact [1, 2] 3)
        = some (24 + 32 + 16 + 24 + 4 + 5 + 16))
    ∧ (sampleContact.supportedVersion = 0 →
      sealedLenOf (send (fun pt _ _ _ => pt ++ List.replicate 16 0) (fun _ _ => [])
          (fun _ => []) (fun _ => 0) (List.replicate 24 0) (List.replicate 24 0)
          (List.replicate 32 0) [1] 5 sampleContact [1, 2] 3)
        = some (24 + 4 + 5 + 16)) :=
  send_sealed_length (fun pt _ _ _ => pt ++ List.replicate 16 0) (fun _ _ => [])
    (fun _ => []) (fun _ => 0) (List.replicate 24 0) (List.replicate 24 0)
    (List.replicate 32 0) [1] 5 sampleContact [1, 2] 3
    (fun pt n pk sk => by simp [boxOverhead]) (by decide) (by decide) (by decide)
    (by decide)

/-- Claim C8: send succeeds for every serialized message of length up to
MAX_SERIALIZED bytes, and fails with the error message too large as soon as
the serialized message is one byte longer. -/
theorem send_message_size_boundary (boxSeal : Bytes → Bytes → Bytes → Bytes → Bytes)
    (groupSign : Bytes → Bytes → Bytes) (sha : Bytes → Bytes) (pad : Nat → Nat)
    (innerNonce outerNonce ephPub ephPriv : Bytes) (maxSer : Nat)
    (toC : Contact) (msgId : Nat) :
    (∀ messageBytes : Bytes, messageBytes.length ≤ maxSer →
      ∃ r, send boxSeal groupSign sha pad innerNonce outerNonce ephPub ephPriv
          maxSer toC messageBytes msgId = .ok r)
    ∧ (∀ big : Bytes, big.length = maxSer + 1 →
      send boxSeal groupSign sha pad innerNonce outerNonce ephPub ephPriv
          maxSer toC big msgId = .error "message too large") := by
  constructor
  · intro messageBytes h
    unfold send
    rw [if_neg (not_lt.mpr h)]
    exact ⟨_, rfl⟩
  · intro big h
    unfold send
    rw [if_pos (by omega)]

/-- Witness for send_message_size_boundary at concrete inputs. -/
theorem send_message_size_boundary_witness :
    (∃ r, send (fun pt _ _ _ => pt) (fun _ _ => []) (fun _ => []) (fun _ => 0)
        [] [] [] [] 2 sampleContact [1, 2] 3 = .ok r)
    ∧ send (fun pt _ _ _ => pt) (fun _ _ => []) (fun _ => []) (fun _ => 0)
        [] [] [] [] 2 sampleContact [1, 2, 3] 3 = .error "message too large" :=
  ⟨(send_message_size_boundary (fun pt _ _ _ => pt) (fun _ _ => []) (fun _ => [])
      (fun _ => 0) [] [] [] [] 2 sampleContact 3).1 [1, 2] (by decide),
   (send_message_size_boundary (fun pt _ _ _ => pt) (fun _ _ => []) (fun _ => [])
      (fun _ => 0) [] [] [] [] 2 sampleContact 3).2 [1, 2, 3] (by decide)⟩

/-- Copying into a fixed n-byte array ignores everything past the first n
source bytes. -/
theorem fixedBytes_take (n : Nat) (l : Bytes) :
    fixedBytes n (l.take n) = fixedBytes n l := by
  unfold fixedBytes
  rw [List.take_take, min_self, List.length_take]
  congr 2
  omega

/-- Claim C4 (amended): the GENERATION_REVOKED handler rejects, with no state
change and nothing posted, every revocation whose Edwards signature is
SHORTER than 64 bytes; a signature of 64 bytes or more is truncated to its
first 64 bytes and processed as if exactly those bytes had been sent. -/
theorem processMessageSent_short_signature_rejected
    (verifyEd : Bytes → Bytes → Bytes → Bool)
    (serializeRev : RevocationRecord → Bytes) (parseRev : Bytes → Option Bytes)
    (updateMemberRes : Bytes → Bytes → Option Bytes)
    (st : PMSState) (msr : MessageSendResult) (sr : SignedRevocation)
    (hrev : msr.revocation = some sr) :
    (sr.signature.length < 64 →
      processMessageSent verifyEd serializeRev parseRev updateMemberRes st msr
        = (st.outbox.find? (fun m => m.id = msr.id)).bind (fun msg =>
            (st.contacts.find? (fun c => c.id = msg.toId)).map (fun _ =>
              { state := st, posted := [] })))
    ∧ (64 ≤ sr.signature.length →
      processMessageSent verifyEd serializeRev parseRev updateMemberRes st msr
        = processMessageSent verifyEd serializeRev parseRev updateMemberRes st
            { id := msr.id,
              revocation := some ({ sr with signature := sr.signature.take 64 }) }) := by
  constructor
  · intro hshort
    simp only [processMessageSent, hrev]
    cases hm : st.outbox.find? (fun m => m.id = msr.id) with
    | none => simp
    | some msg =>
      simp only []
      cases hc : st.contacts.find? (fun c => c.id = msg.toId) with
      | none => simp [hc]
      | some toC =>
        by_cases hg : sr.revocation.generation = toC.generation
        · simp [hg, hshort, hc]
        · simp [hg, hc]
  · intro hlong
    have h1 : ¬ (sr.signature.length < 64) := by omega
    have h2 : ¬ ((sr.signature.take 64).length < 64) := by
      rw [List.length_take]
      omega
    have h3 := fixedBytes_take 64 sr.signature
    simp only [processMessageSent, hrev]
    cases hm : st.outbox.find? (fun m => m.id = msr.id) with
    | none => simp
    | some msg =>
      simp only []
      cases hc : st.contacts.find? (fun c => c.id = msg.toId) with
      | none => simp [hc]
      | some toC =>
        by_cases hg : sr.revocation.generation = toC.generation
        · simp [hg, h1, h2, h3, hc]
        · simp [hg, hc]

/-- Witness for processMessageSent_short_signature_rejected: a 2-byte
signature is rejected with no state change. -/
theorem processMessageSent_short_signature_witness :
    processMessageSent (fun _ _ _ => true) (fun r => [r.generation])
      (fun b => some b) (fun k _ => some k) samplePMSState
      { id := 2, revocation := some sampleShortSigRev }
      = some { state := samplePMSState, posted := [] } := by
  have h := (processMessageSent_short_signature_rejected (fun _ _ _ => true)
    (fun r => [r.generation]) (fun b => some b) (fun k _ => some k)
    samplePMSState { id := 2, revocation := some sampleShortSigRev }
    sampleShortSigRev rfl).1 (by decide)
  rw [h]
  decide

/-- Claim C4 counterexample: a 65-byte signature is NOT rejected by the
length gate; with an accepting verifier it reaches the generation increment,
so the handler does not stop with the state unchanged. -/
theorem processMessageSent_long_signature_counterexample :
    sampleLongSigRev.signature.length = 65
    ∧ processMessageSent (fun _ _ _ => true) (fun r => [r.generation])
        (fun b => some b) (fun k _ => some k) samplePMSState
        { id := 2, revocation := some sampleLongSigRev }
        ≠ some { state := samplePMSState, posted := [] } := by
  constructor
  · decide
  · decide

/-- The inner ladder never touches the peer DH publics. -/
theorem decryptMessageInner_snd_publics (bo : BoxOpen) (fresh sealed nonce : Bytes)
    (c : Contact) :
    ((decryptMessageInner bo fresh sealed nonce c).2).theirLastDHPublic
        = c.theirLastDHPublic
    ∧ ((decryptMessageInner bo fresh sealed nonce c).2).theirCurrentDHPublic
        = c.theirCurrentDHPublic := by
  cases h1 : bo sealed nonce c.theirLastDHPublic c.lastDHPrivate <;>
  cases h2 : bo sealed nonce c.theirCurrentDHPublic c.lastDHPrivate <;>
  cases h3 : bo sealed nonce c.theirLastDHPublic c.currentDHPrivate <;>
  cases h4 : bo sealed nonce c.theirCurrentDHPublic c.currentDHPrivate <;>
  simp [decryptMessageInner, ratchet, h1, h2, h3, h4]

/-- decryptMessage never touches the peer DH publics (the ratchet only
rotates our private halves). -/
theorem decryptMessage_snd_publics (bo : BoxOpen) (f1 f2 sealed nonce : Bytes)
    (c : Contact) :
    ((decryptMessage bo f1 f2 sealed nonce c).2).theirLastDHPublic
        = c.theirLastDHPublic
    ∧ ((decryptMessage bo f1 f2 sealed nonce c).2).theirCurrentDHPublic
        = c.theirCurrentDHPublic := by
  have hA := decryptMessageInner_snd_publics bo f1 sealed nonce c
  have hB := decryptMessageInner_snd_publics bo f1
    (sealed.take (ephemeralBlockLen - nonceLen)) nonce c
  unfold decryptMessage
  cases hI : decryptMessageInner bo f1 sealed nonce c with
  | mk optA cA =>
    rw [hI] at hA
    cases optA with
    | some pt => simpa using hA
    | none =>
      simp only []
      by_cases hlen : sealed.length > ephemeralBlockLen - nonceLen
      · rw [if_pos hlen]
        cases hJ : decryptMessageInner bo f1
            (sealed.take (ephemeralBlockLen - nonceLen)) nonce c with
        | mk optB cB =>
          rw [hJ] at hB
          cases optB with
          | none => simpa using hB
          | some pb =>
            simp only []
            by_cases h32 : pb.length ≠ 32
            · rw [if_pos h32]
              simpa using hB
            · rw [if_neg h32]
              cases hK : bo (List.drop nonceLen (List.drop (ephemeralBlockLen - nonceLen) sealed))
                  (fixedBytes nonceLen (List.drop (ephemeralBlockLen - nonceLen) sealed))
                  pb cB.lastDHPrivate with
              | some pt2 => simpa using hB
              | none =>
                cases hL : bo (List.drop nonceLen (List.drop (ephemeralBlockLen - nonceLen) sealed))
                    (fixedBytes nonceLen (List.drop (ephemeralBlockLen - nonceLen) sealed))
                    pb cB.currentDHPrivate with
                | none => simpa using hB
                | some pt3 => simpa [ratchet] using hB
      · rw [if_neg hlen]
        exact ⟨rfl, rfl⟩

/-- Claim C5 (amended): when the decrypted payload parses to a message whose
my next dh field does not have length 32, the message is dropped; the
contact record keeps its peer DH publics, but the ratchet performed inside
the successful decryption persists, so the DH private halves may already
have rotated. -/
theorem unsealMessage_bad_dh_drop (bo : BoxOpen) (parse : Bytes → Option PondMessage)
    (f1 f2 : Bytes) (inbox : List InboxEntry) (outbox : List QueuedMessage)
    (inboxId : Nat) (sealed : Bytes) (c : Contact) (pt : Bytes) (c1 : Contact)
    (msg : PondMessage)
    (hpend : c.isPending = false)
    (hdec : decryptMessage bo f1 f2 (sealed.drop nonceLen) (fixedBytes nonceLen sealed) c
        = (some pt, c1))
    (hlen : 4 ≤ pt.length)
    (hml : le32get pt ≤ (pt.drop 4).length)
    (hparse : parse ((pt.drop 4).take (le32get pt)) = some msg)
    (hdh : msg.myNextDh.length ≠ 32) :
    unsealMessage bo parse f1 f2 inbox outbox inboxId sealed c = .dropped c1
    ∧ c1.theirLastDHPublic = c.theirLastDHPublic
    ∧ c1.theirCurrentDHPublic = c.theirCurrentDHPublic := by
  have h4 : ¬ (pt.length < 4) := by omega
  have hm2 : ¬ (le32get pt > (pt.drop 4).length) := by omega
  have hpub := decryptMessage_snd_publics bo f1 f2 (sealed.drop nonceLen)
    (fixedBytes nonceLen sealed) c
  rw [hdec] at hpub
  refine ⟨?_, hpub.1, hpub.2⟩
  simp [unsealMessage, hpend, hdec, h4, hm2, hparse, hdh]

/-- A contact tailored to trigger the current-private ladder rung. -/
def c5BoxOpen : BoxOpen := fun _ _ _ k => if k = [4] then some [0, 0, 0, 0] else none

/-- A parse oracle returning a message with a 1-byte my next dh field. -/
def c5Parse : Bytes → Option PondMessage := fun _ =>
  some { msgId := 1, myNextDh := [7], inReplyTo := none,
         supportedVersion := none, body := [] }

/-- Claim C5 counterexample: with a decryption that succeeds on the
current-private rung and a payload whose my next dh has length 1, the
message is dropped but the contact state HAS changed: the ratchet rotated
lastDHPrivate and currentDHPrivate before the length check. -/
theorem unsealMessage_bad_dh_state_counterexample :
    unsealMessage c5BoxOpen c5Parse [9] [10] [] [] 0 (List.replicate 25 0) sampleContact
      = .dropped { sampleContact with lastDHPrivate := [4], currentDHPrivate := [9] }
    ∧ ({ sampleContact with lastDHPrivate := [4], currentDHPrivate := [9] } : Contact)
        ≠ sampleContact := by
  constructor
  · decide
  · decide

/-- Witness for unsealMessage_bad_dh_drop: a decryption succeeding on the
last-private rung leaves the contact unchanged and the bad DH length drops
the message. -/
theorem unsealMessage_bad_dh_drop_witness :
    unsealMessage (fun _ _ _ k => if k = [3] then some [0, 0, 0, 0] else none)
      c5Parse [9] [10] [] [] 0 (List.replicate 25 0) sampleContact
      = .dropped sampleContact
    ∧ sampleContact.theirLastDHPublic = sampleContact.theirLastDHPublic
    ∧ sampleContact.theirCurrentDHPublic = sampleContact.theirCurrentDHPublic :=
  unsealMessage_bad_dh_drop
    (fun _ _ _ k => if k = [3] then some [0, 0, 0, 0] else none)
    c5Parse [9] [10] [] [] 0 (List.replicate 25 0) sampleContact [0, 0, 0, 0]
    sampleContact
    { msgId := 1, myNextDh := [7], inReplyTo := none,
      supportedVersion := none, body := [] }
    (by decide) (by decide) (by decide) (by decide) (by decide) (by decide)

/-- Claim C6 (amended): when the reply to a send carries NO status field (the
wire form of an OK reply from the server), the sent message is removed from
the tail of the rotated queue, where head rotation placed it, and a message
sent event with its id is posted; an explicitly present OK status does not
trigger the removal. -/
theorem dispatchReply_ok_removes_tail (h : QueuedMessage) (t : List QueuedMessage)
    (reply : Reply) (hst : reply.status = none) :
    rotateHead (h :: t) = some (h, t ++ [h])
    ∧ dispatchReply false h (t ++ [h]) reply = (t, [.messageSent h.id none]) := by
  refine ⟨rfl, ?_⟩
  simp [dispatchReply, hst, List.dropLast_concat]

/-- Witness for dispatchReply_ok_removes_tail at concrete inputs. -/
theorem dispatchReply_ok_removes_tail_witness :
    rotateHead [sampleQueued] = some (sampleQueued, [] ++ [sampleQueued])
    ∧ dispatchReply false sampleQueued ([] ++ [sampleQueued])
        { status := none, fetched := false, announce := false, revocation := none }
      = ([], [.messageSent sampleQueued.id none]) :=
  dispatchReply_ok_removes_tail sampleQueued []
    { status := none, fetched := false, announce := false, revocation := none } rfl

/-- Claim C6 counterexample: a reply whose status field is explicitly OK is
classified as a success by replyToError, yet the dispatch neither removes
the rotated head from the queue nor posts a message sent event. -/
theorem dispatchReply_explicit_ok_counterexample :
    replyToError { status := some .ok, fetched := false, announce := false,
                   revocation := none } = none
    ∧ dispatchReply false sampleQueued [sampleQueued]
        { status := some .ok, fetched := false, announce := false, revocation := none }
      = ([sampleQueued], [])
    ∧ ([sampleQueued], ([] : List NetEvent))
        ≠ ([], [NetEvent.messageSent sampleQueued.id none]) := by
  refine ⟨rfl, rfl, by decide⟩

/-- The scan of previous group private keys returns none exactly when none
of them verifies the signature. -/
theorem scanPrevGroupPrivs_none_iff (verify : Bytes → Bytes → Bool) (sig : Bytes)
    (prevs : List Bytes) :
    scanPrevGroupPrivs verify sig prevs = none ↔
      ∀ p ∈ prevs, verify p sig = false := by
  induction prevs with
  | nil => simp [scanPrevGroupPrivs]
  | cons p rest ih =>
    by_cases h : verify p sig = true
    · simp [scanPrevGroupPrivs, h]
    · have hf : verify p sig = false := by
        revert h
        cases verify p sig <;> simp
      simp [scanPrevGroupPrivs, hf, ih]

/-- Claim C7: when the current group private key fails to verify but some
previous one verifies, the tag is extracted with group open on the CURRENT
group private key; when no key verifies, processFetch drops the message. -/
theorem fetchTag_opens_under_current
    (verify : Bytes → Bytes → Bool) (openSig : Bytes → Bytes → Option Bytes)
    (tagOf : Bytes → Bytes) (bo : BoxOpen) (parse : Bytes → Option PondMessage)
    (f1 f2 gp : Bytes) (prevs : List Bytes) (contacts : List Contact)
    (inbox : List InboxEntry) (outbox : List QueuedMessage) (newId : Nat)
    (fMessage fSignature : Bytes) :
    (verify gp fSignature = false →
      (∃ p ∈ prevs, verify p fSignature = true) →
      fetchTag verify openSig gp prevs fSignature = openSig gp fSignature)
    ∧ (verify gp fSignature = false →
      (∀ p ∈ prevs, verify p fSignature = false) →
      processFetch verify openSig tagOf bo parse f1 f2 gp prevs contacts inbox
        outbox newId fMessage fSignature = .droppedMsg) := by
  constructor
  · intro hcur hex
    unfold fetchTag
    rw [if_neg (by simp [hcur])]
    cases hscan : scanPrevGroupPrivs verify fSignature prevs with
    | some p => rfl
    | none =>
      exfalso
      rw [scanPrevGroupPrivs_none_iff] at hscan
      obtain ⟨p, hp, hv⟩ := hex
      have hf := hscan p hp
      rw [hf] at hv
      cases hv
  · intro hcur hall
    have hnone : fetchTag verify openSig gp prevs fSignature = none := by
      unfold fetchTag
      rw [if_neg (by simp [hcur]),
        (scanPrevGroupPrivs_none_iff verify fSignature prevs).mpr hall]
    unfold processFetch
    rw [hnone]

/-- Witness for fetchTag_opens_under_current at concrete inputs. -/
theorem fetchTag_opens_under_current_witness :
    fetchTag (fun g _ => decide (g = [1])) (fun g s => some (g ++ s)) [2] [[1]] [5]
      = some ([2] ++ [5])
    ∧ processFetch (fun _ _ => false) (fun g s => some (g ++ s)) (fun k => k)
        (fun _ _ _ _ => none) (fun _ => none) [] [] [2] [[1]] [] [] [] 0 [] [5]
        = .droppedMsg :=
  ⟨(fetchTag_opens_under_current (fun g _ => decide (g = [1]))
      (fun g s => some (g ++ s)) (fun k => k) (fun _ _ _ _ => none) (fun _ => none)
      [] [] [2] [[1]] [] [] [] 0 [] [5]).1 (by decide)
      ⟨[1], by decide, by decide⟩,
   (fetchTag_opens_under_current (fun _ _ => false)
      (fun g s => some (g ++ s)) (fun k => k) (fun _ _ _ _ => none) (fun _ => none)
      [] [] [2] [[1]] [] [] [] 0 [] [5]).2 rfl (by decide)⟩

/-- Unsealing a non-pending contact never reaches the panic. -/
theorem unsealMessage_not_panicked_of_not_pending (bo : BoxOpen)
    (parse : Bytes → Option PondMessage) (f1 f2 : Bytes) (inbox : List InboxEntry)
    (outbox : List QueuedMessage) (inboxId : Nat) (sealed : Bytes) (c : Contact)
    (h : c.isPending = false) :
    unsealMessage bo parse f1 f2 inbox outbox inboxId sealed c ≠ .panicked := by
  simp only [unsealMessage, h]
  simp only [Bool.false_eq_true, if_false]
  repeat' split
  all_goals simp

/-- Claim C9: unsealMessage called on a pending contact always aborts with
the modelled panic, and the fetch path never reaches that panic: for every
oracle, state and input, processFetch never returns the panicked outcome. -/
theorem unseal_pending_panics_and_fetch_safe :
    (∀ (bo : BoxOpen) (parse : Bytes → Option PondMessage) (f1 f2 : Bytes)
        (inbox : List InboxEntry) (outbox : List QueuedMessage) (inboxId : Nat)
        (sealed : Bytes) (c : Contact), c.isPending = true →
        unsealMessage bo parse f1 f2 inbox outbox inboxId sealed c = .panicked)
    ∧ (∀ (verify : Bytes → Bytes → Bool) (openSig : Bytes → Bytes → Option Bytes)
        (tagOf : Bytes → Bytes) (bo : BoxOpen) (parse : Bytes → Option PondMessage)
        (f1 f2 gp : Bytes) (prevs : List Bytes) (contacts : List Contact)
        (inbox : List InboxEntry) (outbox : List QueuedMessage) (newId : Nat)
        (fM fS : Bytes),
        processFetch verify openSig tagOf bo parse f1 f2 gp prevs contacts inbox
          outbox newId fM fS ≠ .panicked) := by
  constructor
  · intro bo parse f1 f2 inbox outbox inboxId sealed c h
    simp [unsealMessage, h]
  · intro verify openSig tagOf bo parse f1 f2 gp prevs contacts inbox outbox newId fM fS
    unfold processFetch
    cases hft : fetchTag verify openSig gp prevs fS with
    | none => simp
    | some tag =>
      simp only []
      cases hfc : findContactByTag tagOf tag contacts with
      | none => simp
      | some fromC =>
        simp only []
        by_cases hrev : fromC.revoked = true
        · simp [hrev]
        · by_cases hsz : fM.length < boxOverhead + 24
          · simp [hrev, hsz]
          · by_cases hp : fromC.isPending = true
            · simp [hrev, hsz, hp]
            · have hpf : fromC.isPending = false := by
                revert hp
                cases fromC.isPending <;> simp
              have hnp := unsealMessage_not_panicked_of_not_pending bo parse f1 f2
                inbox outbox newId fM fromC hpf
              cases hu : unsealMessage bo parse f1 f2 inbox outbox newId fM fromC with
              | panicked => exact absurd hu hnp
              | dropped c1 => simp [hrev, hsz, hp, hu]
              | accepted c2 m ob => simp [hrev, hsz, hp, hu]

/-- Witness for unseal_pending_panics_and_fetch_safe at concrete inputs. -/
theorem unseal_pending_panics_and_fetch_safe_witness :
    unsealMessage (fun _ _ _ _ => none) (fun _ => none) [] [] [] [] 0 []
      samplePendingContact = .panicked
    ∧ processFetch (fun _ _ => false) (fun _ _ => none) (fun k => k)
        (fun _ _ _ _ => none) (fun _ => none) [] [] [] [] [] [] [] 0 [] []
        ≠ .panicked :=
  ⟨unseal_pending_panics_and_fetch_safe.1 (fun _ _ _ _ => none) (fun _ => none)
      [] [] [] [] 0 [] samplePendingContact (by decide),
   unseal_pending_panics_and_fetch_safe.2 (fun _ _ => false) (fun _ _ => none)
      (fun k => k) (fun _ _ _ _ => none) (fun _ => none) [] [] [] [] [] [] [] 0 [] []⟩

/-- Unfolding of sumChunks on cons. -/
theorem sumChunks_cons (n : Nat) (rest : List Nat) :
    sumChunks (n :: rest) = (n : Int) + sumChunks rest := rfl

/-- When the cumulative counter plus the remaining chunk volume exceeds the
attempt total, the guard fires at some point of the stream. -/
theorem streamChunks_guard :
    ∀ (chunks : List Nat) (t total : Int), chunks ≠ [] →
      t + sumChunks chunks > total →
      ∃ v, streamChunks total t chunks = .guardFired v := by
  intro chunks
  induction chunks with
  | nil => intro t total hne; exact absurd rfl hne
  | cons n rest ih =>
    intro t total _ hsum
    by_cases h : t + (n : Int) > total
    · exact ⟨t + n, by simp [streamChunks, h]⟩
    · cases rest with
      | nil =>
        exfalso
        rw [sumChunks_cons] at hsum
        simp [sumChunks] at hsum
        omega
      | cons m r2 =>
        have hne2 : (m :: r2 : List Nat) ≠ [] := by simp
        have hsum2 : (t + n) + sumChunks (m :: r2) > total := by
          rw [sumChunks_cons] at hsum
          omega
        obtain ⟨v, hv⟩ := ih (t + n) total hne2 hsum2
        refine ⟨v, ?_⟩
        have hstep : streamChunks total t (n :: m :: r2)
            = if t + (n : Int) > total then .guardFired (t + n)
              else streamChunks total (t + n) (m :: r2) := rfl
        rw [hstep, if_neg h, hv]

/-- Claim C10: the transferred counter accumulates across connection
attempts while the total is recomputed from the server resume offset, so a
transfer whose first attempt moved at least one byte and which resumes at a
nonzero offset short of the file size always hits the guard and aborts with
the transferred-too-much error; at every point that survives the guard the
cumulative counter is still below the original file size. -/
theorem transferDetachment_cumulative_guard
    (fileSize resumeOffset t1 : Int) (chunks : List Nat) (completeOk : Bool)
    (ht1 : 1 ≤ t1) (hr : 1 ≤ resumeOffset) (hrs : resumeOffset < fileSize)
    (hsum : sumChunks chunks = fileSize - resumeOffset) :
    uploadAttempt fileSize resumeOffset t1 chunks completeOk
      = .fatal "transferred more than the expected amount"
    ∧ ∀ l1 l2, chunks = l1 ++ l2 →
        t1 + sumChunks l1 ≤ fileSize - resumeOffset →
        t1 + sumChunks l1 < fileSize := by
  have hne : chunks ≠ [] := by
    intro hnil
    rw [hnil] at hsum
    simp [sumChunks] at hsum
    omega
  have hgt : t1 + sumChunks chunks > fileSize - resumeOffset := by
    rw [hsum]
    omega
  obtain ⟨v, hv⟩ := streamChunks_guard chunks t1 (fileSize - resumeOffset) hne hgt
  constructor
  · unfold uploadAttempt
    rw [if_neg (by omega : ¬ resumeOffset = fileSize)]
    simp [hv]
  · intro l1 l2 heq hle
    omega

/-- Witness for transferDetachment_cumulative_guard at concrete inputs. -/
theorem transferDetachment_cumulative_guard_witness :
    uploadAttempt 10 3 2 [7] true = .fatal "transferred more than the expected amount" :=
  (transferDetachment_cumulative_guard 10 3 2 [7] true (by norm_num) (by norm_num)
    (by norm_num) (by decide)).1

end Pond
